import Mathlib

/-!
Verification of the OrderNet node core against its specification.

The development shallowly embeds the TypeScript sources of the OrderNet
repository (packages/core): byte strings become lists of naturals,
cryptographic primitives become symbolic constructors that record exactly
the inputs the real primitives bind together, JavaScript Maps and SQLite
tables become association lists with the same insert/upsert semantics,
and each protocol handler becomes a pure state-transition function.
Randomness (nonces, ephemeral keys, message ids) and clock reads are
passed as explicit arguments.  Fallible operations return Except or
Option, mirroring thrown exceptions and null returns.
-/

namespace OrderNet

/-- Byte strings (Uint8Array and Buffer values) are lists of naturals.
Where byte-level facts matter, validity (every entry below 256) is an
explicit hypothesis. -/
abbrev Bytes := List Nat

/-! ## Hexadecimal encoding

Models Buffer.prototype.toString with encoding hex (lowercase output),
the forgiving Buffer.from(string, hex) decoder of Node (decodes byte
pairs until the first invalid pair, dropping a trailing odd nibble), and
the strict hexToBytes of the noble library (errors on odd length or any
invalid character). -/

/-- Lowercase hexadecimal digit for a nibble value: codepoint 48 onward
for the decimal digits, 87 plus the value for the letters. -/
def toHexDigit (n : Nat) : Char :=
  if n < 10 then Char.ofNat (48 + n) else Char.ofNat (87 + n)

/-- Numeric value of a hexadecimal digit character, accepting both
cases, by codepoint range. -/
def hexVal (c : Char) : Option Nat :=
  let n := c.toNat
  if 48 ≤ n ∧ n ≤ 57 then some (n - 48)
  else if 97 ≤ n ∧ n ≤ 102 then some (n - 87)
  else if 65 ≤ n ∧ n ≤ 70 then some (n - 55)
  else none

/-- Two lowercase hexadecimal digits of a byte. -/
def byteToHex (b : Nat) : List Char := [toHexDigit (b / 16), toHexDigit (b % 16)]

/-- Lowercase hexadecimal character sequence of a byte string, as produced
by Buffer.prototype.toString with encoding hex. -/
def bytesToHexChars (bs : Bytes) : List Char := (bs.map byteToHex).flatten

/-- Lowercase hexadecimal string of a byte string. -/
def bytesToHexString (bs : Bytes) : String := String.mk (bytesToHexChars bs)

/-- Forgiving hexadecimal decoder of Node Buffer.from with encoding hex:
decodes character pairs until the first invalid pair and silently drops
everything from there on, including a trailing odd nibble. -/
def hexDecodePairs : List Char → List Nat
  | c1 :: c2 :: rest =>
    match hexVal c1, hexVal c2 with
    | some h, some l => (16 * h + l) :: hexDecodePairs rest
    | _, _ => []
  | _ => []

/-- Forgiving hexadecimal decoding of a string, Node Buffer semantics. -/
def hexDecodeNode (s : String) : Bytes := hexDecodePairs s.data

/-- Strict hexadecimal decoder of the noble hexToBytes helper: fails on an
odd-length input or on any invalid character. -/
def hexDecodeStrict : List Char → Option (List Nat)
  | [] => some []
  | c1 :: c2 :: rest =>
    match hexVal c1, hexVal c2 with
    | some h, some l => (hexDecodeStrict rest).map (fun bs => (16 * h + l) :: bs)
    | _, _ => none
  | _ :: [] => none

/-- Conversion of a hexadecimal string back to public-key bytes
(crypto/identity.ts hexToPubKey, backed by noble hexToBytes, which throws
on malformed input). -/
def hexToPubKeyE (s : String) : Except String Bytes :=
  match hexDecodeStrict s.data with
  | some bs => Except.ok bs
  | none => Except.error "hexToBytes: invalid hex string"

/-- Lowercasing of a string (String.prototype.toLowerCase on the ASCII
hex-and-identifier strings the node compares). -/
def strLower (s : String) : String := String.mk (s.data.map Char.toLower)

/-- Prefix test on strings (String.prototype.startsWith on the ASCII
topic strings), character-list based. -/
def strStartsWith (s p : String) : Bool := s.data.take p.data.length == p.data

/-- Suffix from a character position (String.prototype.slice with one
argument on the ASCII topic strings), character-list based. -/
def strDrop (s : String) (n : Nat) : String := String.mk (s.data.drop n)

theorem hexVal_toHexDigit : ∀ n < 16, hexVal (toHexDigit n) = some n := by decide

theorem hexDecodePairs_byte (b : Nat) (hb : b < 256) (rest : List Char) :
    hexDecodePairs (byteToHex b ++ rest) = b :: hexDecodePairs rest := by
  have hhi : b / 16 < 16 := Nat.div_lt_of_lt_mul (by omega)
  have hlo : b % 16 < 16 := Nat.mod_lt _ (by omega)
  have h1 := hexVal_toHexDigit _ hhi
  have h2 := hexVal_toHexDigit _ hlo
  simp [byteToHex, hexDecodePairs, h1, h2, Nat.div_add_mod]

theorem hexDecodePairs_bytesToHexChars (bs : Bytes) (h : ∀ b ∈ bs, b < 256) :
    hexDecodePairs (bytesToHexChars bs) = bs := by
  induction bs with
  | nil => rfl
  | cons b rest ih =>
    have hb : b < 256 := h b (by simp)
    have hrest : ∀ x ∈ rest, x < 256 := fun x hx => h x (by simp [hx])
    simp only [bytesToHexChars, List.map_cons, List.flatten_cons] at *
    rw [hexDecodePairs_byte b hb]
    rw [ih hrest]

theorem hexDecodeNode_bytesToHexString (bs : Bytes) (h : ∀ b ∈ bs, b < 256) :
    hexDecodeNode (bytesToHexString bs) = bs := by
  simpa [hexDecodeNode, bytesToHexString] using hexDecodePairs_bytesToHexChars bs h

theorem hexDecodeStrict_byte (b : Nat) (hb : b < 256) (rest : List Char) :
    hexDecodeStrict (byteToHex b ++ rest) = (hexDecodeStrict rest).map (fun bs => b :: bs) := by
  have hhi : b / 16 < 16 := Nat.div_lt_of_lt_mul (by omega)
  have hlo : b % 16 < 16 := Nat.mod_lt _ (by omega)
  have h1 := hexVal_toHexDigit _ hhi
  have h2 := hexVal_toHexDigit _ hlo
  simp [byteToHex, hexDecodeStrict, h1, h2, Nat.div_add_mod]

theorem hexDecodeStrict_bytesToHexChars (bs : Bytes) (h : ∀ b ∈ bs, b < 256) :
    hexDecodeStrict (bytesToHexChars bs) = some bs := by
  induction bs with
  | nil => rfl
  | cons b rest ih =>
    have hb : b < 256 := h b (by simp)
    have hrest : ∀ x ∈ rest, x < 256 := fun x hx => h x (by simp [hx])
    simp only [bytesToHexChars, List.map_cons, List.flatten_cons] at *
    rw [hexDecodeStrict_byte b hb, ih hrest]
    rfl

theorem hexToPubKeyE_bytesToHexString (bs : Bytes) (h : ∀ b ∈ bs, b < 256) :
    hexToPubKeyE (bytesToHexString bs) = Except.ok bs := by
  simp [hexToPubKeyE, bytesToHexString, hexDecodeStrict_bytesToHexChars bs h]

/-! ## Symbolic cryptographic primitives

The noble Ed25519 / X25519 / XChaCha20-Poly1305 / HKDF primitives are
modelled symbolically: a signature records the signing key and the signed
message, verification holds exactly when the signature was produced over
the same message by the private half of the given public key; an AEAD
ciphertext records the key, the nonce and the plaintext, and decryption
succeeds exactly when key and nonce match (a mismatch is the
authentication failure the real primitive throws on); key derivations are
injective constructor-like functions.  The Montgomery conversions commute
with public-key derivation by construction, matching the algebra the
sources rely on. -/

/-- Symbolic Ed25519 public-key derivation from a private key. -/
def derivePub (priv : Bytes) : Bytes := 0 :: priv

/-- Symbolic signature value: the signing private key and the message. -/
inductive MSig (α : Type) where
  | mk (priv : Bytes) (msg : α)
deriving DecidableEq, Repr

/-- Ed25519 signing (crypto/identity.ts signMessage). -/
def signMessage {α : Type} (priv : Bytes) (msg : α) : MSig α := MSig.mk priv msg

/-- Ed25519 verification (crypto/identity.ts verifySignature): true exactly
when the signature was made over this message with the private half of
this public key. -/
def verifySignature {α : Type} [DecidableEq α] (pub : Bytes) (msg : α) (sig : MSig α) : Bool :=
  match sig with
  | MSig.mk p m => decide (derivePub p = pub) && decide (m = msg)

/-- Symbolic AEAD ciphertext: records key, nonce and plaintext. -/
inductive Cipher (α : Type) where
  | enc (key : Bytes) (nonce : Bytes) (plain : α)
deriving DecidableEq, Repr

/-- XChaCha20-Poly1305 encryption under a key and nonce. -/
def aeadEncrypt {α : Type} (key nonce : Bytes) (plain : α) : Cipher α :=
  Cipher.enc key nonce plain

/-- XChaCha20-Poly1305 decryption: succeeds exactly when the key and nonce
match those used at encryption, the authentication guarantee of the tag. -/
def aeadDecrypt {α : Type} [DecidableEq α] (key nonce : Bytes) (c : Cipher α) : Option α :=
  match c with
  | Cipher.enc k n p => if k = key ∧ n = nonce then some p else none

/-- Symbolic X25519 public key of a private scalar. -/
def x25519Pub (priv : Bytes) : Bytes := 1 :: priv

/-- Lexicographic comparison on byte strings, used to make the symbolic
shared secret independent of the order of the two parties. -/
def lexLe : Bytes → Bytes → Bool
  | [], _ => true
  | _ :: _, [] => false
  | a :: as, b :: bs => if a < b then true else if b < a then false else lexLe as bs

/-- Symbolic shared secret of two public keys: the pair in canonical
order, so both sides of a Diffie-Hellman derive the same value. -/
def dhShared (a b : Bytes) : Bytes :=
  if lexLe a b then a ++ 255 :: b else b ++ 255 :: a

/-- X25519 scalar multiplication result, as the shared secret of the own
public key and the given remote public key. -/
def x25519SharedSecret (priv pub : Bytes) : Bytes := dhShared (x25519Pub priv) pub

/-- Conversion of an Ed25519 private key to its X25519 form
(noble edwardsToMontgomeryPriv). -/
def edwardsToMontgomeryPriv (edPriv : Bytes) : Bytes := 2 :: edPriv

/-- Conversion of an Ed25519 public key to its X25519 form
(noble edwardsToMontgomeryPub); commutes with key derivation, the algebra
the key exchange relies on. -/
def edwardsToMontgomeryPub (edPub : Bytes) : Bytes :=
  match edPub with
  | 0 :: rest => x25519Pub (2 :: rest)
  | other => 3 :: other

/-- HKDF-SHA256 key derivation (injective in the inputs). -/
def hkdfSha256 (ikm : Bytes) (info : String) (len : Nat) : Bytes :=
  4 :: len :: (info.data.map Char.toNat) ++ 255 :: ikm

/-! ## Data model (types.ts) -/

/-- Channel access modes (types.ts ChannelAccessMode). -/
inductive ChannelAccessMode where
  | publicMode
  | privateMode
  | dmMode
deriving DecidableEq, Repr

/-- Channel configuration (types.ts ChannelConfig).  The three access
fields are optional in the source and are modelled with Option; none is
the TypeScript undefined. -/
structure ChannelConfig where
  id : String
  name : String
  creatorPubKey : Bytes
  vouchThreshold : Int
  createdAt : Int
  accessMode : Option ChannelAccessMode
  inviteOnly : Option Bool
  allowedMembers : Option (List String)
deriving DecidableEq, Repr

/-- Plain (decrypted) chat message (types.ts PlainMessage). -/
structure PlainMessage where
  content : String
  senderPubKey : Bytes
  senderNick : String
  timestamp : Int
  channelId : String
  messageId : String
deriving DecidableEq, Repr

/-- Encrypted chat envelope (types.ts EncryptedMessage).  The ciphertext
carries the JSON pair of content and sender nickname; the signature is
over the ciphertext bytes only. -/
structure EncryptedMessage where
  nonce : Bytes
  ciphertext : Cipher (String × String)
  senderPubKey : Bytes
  signature : MSig (Cipher (String × String))
  timestamp : Int
  channelId : String
  messageId : String
deriving DecidableEq, Repr

/-- In-memory channel state (types.ts ChannelState): config, 32-byte
group key, and the member set of hex public keys.  The JavaScript Set is
an insertion-ordered list without duplicates. -/
structure ChannelState where
  config : ChannelConfig
  groupKey : Bytes
  members : List String
deriving DecidableEq, Repr

/-- Events of the node event bus (types.ts OrderNetEvent), restricted to
the tags the modelled handlers can emit. -/
inductive Event where
  | message (m : PlainMessage)
  | peerJoined (pubKey : String) (nickname : String)
  | peerLeft (pubKey : String)
  | keyReceived (channelId : String)
  | presenceEv (pubKey : Bytes) (nickname : String) (timestamp : Int) (channels : List String)
  | errorEv (msg : String)
deriving DecidableEq, Repr

/-! ## Association lists

JavaScript Maps keyed by strings are insertion-ordered association
lists: set on an existing key replaces in place, set on a fresh key
appends. -/

/-- Lookup in a string-keyed association list (Map.prototype.get). -/
def alistGet {β : Type} (m : List (String × β)) (k : String) : Option β :=
  (m.find? (fun p => p.1 == k)).map (fun p => p.2)

/-- Update or insert in a string-keyed association list
(Map.prototype.set). -/
def alistSet {β : Type} (m : List (String × β)) (k : String) (v : β) : List (String × β) :=
  if (m.find? (fun p => p.1 == k)).isSome then
    m.map (fun p => if p.1 == k then (k, v) else p)
  else
    m ++ [(k, v)]

theorem alistGet_set_self {β : Type} (m : List (String × β)) (k : String) (v : β) :
    alistGet (alistSet m k v) k = some v := by
  unfold alistGet alistSet
  induction m with
  | nil => simp
  | cons p rest ih =>
    by_cases hp : p.1 = k
    · simp [List.find?, hp]
    · have hb : (p.1 == k) = false := by simp [hp]
      by_cases hr : (rest.find? (fun q => q.1 == k)).isSome
      · simp only [List.find?, hb, Bool.false_eq_true, if_false, hr, if_true, List.map_cons]
        simp only [List.find?, hb, hr, if_true, List.map_cons] at ih
        simpa [List.find?, hb] using ih
      · simp only [List.find?, hb, Bool.false_eq_true, if_false, hr, List.cons_append]
        simp only [hr, if_false] at ih
        simpa [List.find?, hb] using ih

/-- Insertion into a JavaScript Set modelled as a duplicate-free list. -/
def insertUnique (l : List String) (x : String) : List String :=
  if x ∈ l then l else l ++ [x]

/-! ## Channel store (storage/channels.ts) -/

/-- Row of the channels table as actually written by ChannelStore.save:
only id, name, group key, creator, vouch threshold and joined-at.  The
access-mode, invite-only and allowed-members columns of the schema are
never referenced by the store. -/
structure ChannelRow where
  name : String
  groupKey : Bytes
  creatorPubKey : Bytes
  vouchThreshold : Int
  joinedAt : Int
deriving DecidableEq, Repr

/-- The channels table, keyed by channel id. -/
abbrev ChannelTable := List (String × ChannelRow)

/-- Durable channel record handed to and returned by the store
(storage/channels.ts StoredChannel). -/
structure StoredChannel where
  config : ChannelConfig
  groupKey : Bytes
  joinedAt : Int
deriving DecidableEq, Repr

/-- ChannelStore.save: INSERT of the six columns with ON CONFLICT(id)
updating only group_key and name.  The access fields of the config are
not written. -/
def channelStoreSave (tbl : ChannelTable) (ch : StoredChannel) : ChannelTable :=
  match alistGet tbl ch.config.id with
  | some old =>
    alistSet tbl ch.config.id { old with groupKey := ch.groupKey, name := ch.config.name }
  | none =>
    alistSet tbl ch.config.id
      { name := ch.config.name
        groupKey := ch.groupKey
        creatorPubKey := ch.config.creatorPubKey
        vouchThreshold := ch.config.vouchThreshold
        joinedAt := ch.joinedAt }

/-- ChannelStore.get: rebuilds a StoredChannel from a row.  The returned
config carries no access-mode, invite-only or allowed-members fields
(they are absent from the SELECTed construction), and created-at is the
joined-at column. -/
def channelRowToStored (id : String) (row : ChannelRow) : StoredChannel :=
  { config :=
      { id := id
        name := row.name
        creatorPubKey := row.creatorPubKey
        vouchThreshold := row.vouchThreshold
        createdAt := row.joinedAt
        accessMode := none
        inviteOnly := none
        allowedMembers := none }
    groupKey := row.groupKey
    joinedAt := row.joinedAt }

/-- ChannelStore.get. -/
def channelStoreGet (tbl : ChannelTable) (channelId : String) : Option StoredChannel :=
  (alistGet tbl channelId).map (channelRowToStored channelId)

/-- ChannelStore.getAll. -/
def channelStoreGetAll (tbl : ChannelTable) : List StoredChannel :=
  tbl.map (fun p => channelRowToStored p.1 p.2)

/-! ## Channel manager (channels/manager.ts, channels/channel.ts) -/

/-- Hex encoding of a public key (crypto/identity.ts pubKeyToHex). -/
def pubKeyToHex (pub : Bytes) : String := bytesToHexString pub

/-- ChannelManager.normalizeAllowedMembers: a set seeded with the
lowercased own hex key, then each truthy entry lowercased. -/
def normalizeAllowedMembers (selfPub : Bytes) (ams : Option (List String)) : List String :=
  ((ams.getD []).filter (fun m => m != "")).foldl
    (fun acc m => insertUnique acc (strLower m))
    [strLower (pubKeyToHex selfPub)]

/-- ChannelManager.normalizeConfig: defaults the access fields. -/
def normalizeConfig (selfPub : Bytes) (cfg : ChannelConfig) : ChannelConfig :=
  { cfg with
      accessMode := some (cfg.accessMode.getD ChannelAccessMode.publicMode)
      inviteOnly := some (cfg.inviteOnly.getD false)
      allowedMembers := some (normalizeAllowedMembers selfPub cfg.allowedMembers) }

/-- channels/channel.ts createChannelState with no extra initial members:
the member set starts with the creator hex key. -/
def createChannelState (cfg : ChannelConfig) (groupKey : Bytes) : ChannelState :=
  { config := cfg, groupKey := groupKey, members := [pubKeyToHex cfg.creatorPubKey] }

/-- channels/channel.ts addMember. -/
def addMember (st : ChannelState) (pub : Bytes) : ChannelState :=
  { st with members := insertUnique st.members (pubKeyToHex pub) }

/-- The in-memory channel map of the ChannelManager. -/
abbrev ChannelMap := List (String × ChannelState)

/-- ChannelManager.loadChannels: every stored channel is normalized,
turned into a state, and the own identity inserted into its members. -/
def loadChannels (selfPub : Bytes) (tbl : ChannelTable) : ChannelMap :=
  (channelStoreGetAll tbl).foldl
    (fun mgr s =>
      let config := normalizeConfig selfPub s.config
      let state := createChannelState config s.groupKey
      let state2 := { state with members := insertUnique state.members (pubKeyToHex selfPub) }
      alistSet mgr s.config.id state2)
    []

/-- ChannelManager.joinChannel: builds the normalized state, adds the own
identity to the members, stores it in the map and persists the original
config.  The joined-at clock read is an explicit argument. -/
def joinChannel (selfPub : Bytes) (mgr : ChannelMap) (tbl : ChannelTable)
    (cfg : ChannelConfig) (groupKey : Bytes) (now : Int) :
    ChannelState × ChannelMap × ChannelTable :=
  let state := addMember (createChannelState (normalizeConfig selfPub cfg) groupKey) selfPub
  (state, alistSet mgr cfg.id state,
    channelStoreSave tbl { config := cfg, groupKey := groupKey, joinedAt := now })

/-- ChannelManager.hasAccess: true when the channel exists and either is
not invite-only or the lowercased peer key is among the lowercased
allowed members. -/
def hasAccess (mgr : ChannelMap) (channelId memberPubKeyHex : String) : Bool :=
  match alistGet mgr channelId with
  | none => false
  | some st =>
    if st.config.inviteOnly.getD false = false then true
    else
      decide (strLower memberPubKeyHex ∈ (st.config.allowedMembers.getD []).map strLower)

/-- ChannelManager.inviteMember: a no-op success on a public non-invite
channel; otherwise adds the lowercased peer, forces invite-only, and
re-persists the updated config. -/
def inviteMember (mgr : ChannelMap) (tbl : ChannelTable)
    (channelId memberPubKeyHex : String) :
    Bool × ChannelMap × ChannelTable :=
  match alistGet mgr channelId with
  | none => (false, mgr, tbl)
  | some st =>
    if st.config.accessMode.getD ChannelAccessMode.publicMode = ChannelAccessMode.publicMode
        ∧ st.config.inviteOnly.getD false = false then
      (true, mgr, tbl)
    else
      let normalized := strLower memberPubKeyHex
      let allowed :=
        insertUnique ((st.config.allowedMembers.getD []).foldl insertUnique []) normalized
      let cfg2 := { st.config with allowedMembers := some allowed, inviteOnly := some true }
      let st2 := { st with config := cfg2 }
      (true, alistSet mgr channelId st2,
        channelStoreSave tbl { config := cfg2, groupKey := st.groupKey, joinedAt := cfg2.createdAt })

/-! ## Message crypto (crypto/messages.ts) -/

/-- crypto/messages.ts encryptMessage: encrypts the JSON pair of content
and sender nickname under the group key with a fresh nonce, then signs
the ciphertext with the sender Ed25519 key.  Timestamp, message id and
nonce are random or clock inputs, passed explicitly. -/
def encryptMessage (content : String) (channelId : String) (groupKey : Bytes)
    (senderPubKey senderPrivKey : Bytes) (senderNick : String)
    (timestamp : Int) (messageId : String) (nonce : Bytes) : EncryptedMessage :=
  let ciphertext := aeadEncrypt groupKey nonce (content, senderNick)
  { nonce := nonce
    ciphertext := ciphertext
    senderPubKey := senderPubKey
    signature := signMessage senderPrivKey ciphertext
    timestamp := timestamp
    channelId := channelId
    messageId := messageId }

/-- crypto/messages.ts decryptMessage: verifies the signature over the
ciphertext first, then decrypts with the group key; any failure yields
null. -/
def decryptMessage (encrypted : EncryptedMessage) (groupKey : Bytes) : Option PlainMessage :=
  if verifySignature encrypted.senderPubKey encrypted.ciphertext encrypted.signature = false then
    none
  else
    match aeadDecrypt groupKey encrypted.nonce encrypted.ciphertext with
    | none => none
    | some (content, senderNick) =>
      some
        { content := content
          senderPubKey := encrypted.senderPubKey
          senderNick := senderNick
          timestamp := encrypted.timestamp
          channelId := encrypted.channelId
          messageId := encrypted.messageId }

/-! ## Group-key crypto (crypto/group-keys.ts) -/

/-- crypto/group-keys.ts encryptGroupKeyForPeer: ephemeral X25519 pair,
ECDH against the Montgomery form of the recipient Ed25519 key, HKDF, and
AEAD encryption of the group key.  The ephemeral private key and nonce
are random inputs, passed explicitly. -/
def encryptGroupKeyForPeer (groupKey senderEdPriv recipientEdPub : Bytes)
    (ephemeralPriv nonce : Bytes) : Cipher Bytes × Bytes × Bytes :=
  let _ := senderEdPriv
  let ephemeralPub := x25519Pub ephemeralPriv
  let recipientX := edwardsToMontgomeryPub recipientEdPub
  let sharedSecret := x25519SharedSecret ephemeralPriv recipientX
  let derivedKey := hkdfSha256 sharedSecret "ordernet-keyex" 32
  (aeadEncrypt derivedKey nonce groupKey, ephemeralPub, nonce)

/-- crypto/group-keys.ts decryptGroupKeyFromPeer: ECDH of the recipient
Montgomery private key with the ephemeral public key, HKDF, AEAD
decryption.  The AEAD throw on authentication failure is the none case. -/
def decryptGroupKeyFromPeer (encryptedKey : Cipher Bytes)
    (recipientEdPriv ephemeralPub nonce : Bytes) : Option Bytes :=
  let recipientX := edwardsToMontgomeryPriv recipientEdPriv
  let sharedSecret := x25519SharedSecret recipientX ephemeralPub
  let derivedKey := hkdfSha256 sharedSecret "ordernet-keyex" 32
  aeadDecrypt derivedKey nonce encryptedKey

/-! ## Message store (storage/messages.ts) and chat protocol
(protocols/chat.ts) -/

/-- The messages table as a list of envelopes in insertion order. -/
abbrev MsgTable := List EncryptedMessage

/-- MessageStore.exists: point lookup on the unique message id. -/
def msgExists (tbl : MsgTable) (messageId : String) : Bool :=
  tbl.any (fun m => m.messageId == messageId)

/-- MessageStore.save: INSERT OR IGNORE keyed on message_id.  The
channel_id column is a foreign key into channels(id); SQLite raises on a
violating insert even under OR IGNORE, modelled as the error case.  The
set of channel ids present in the channels table is the fk argument. -/
def msgSave (fk : List String) (tbl : MsgTable) (m : EncryptedMessage) :
    Except String MsgTable :=
  if m.channelId ∈ fk then
    if msgExists tbl m.messageId then Except.ok tbl else Except.ok (tbl ++ [m])
  else
    Except.error "FOREIGN KEY constraint failed"

/-- Gossip topic of a channel (protocols/chat.ts channelTopic). -/
def channelTopic (channelId : String) : String :=
  "/ordernet/chat/1.0.0/" ++ channelId

/-- ChatProtocol.sendMessage: requires the channel to exist (silent null
otherwise), requires access (error event and null otherwise), then
encrypts, publishes, saves locally and returns the plain echo.  The
returned tuple is the result, the published topic payloads, the new
message table and the emitted events. -/
def sendMessage (selfPub selfPriv : Bytes) (selfNick : String)
    (mgr : ChannelMap) (fk : List String) (store : MsgTable)
    (channelId content : String)
    (timestamp : Int) (messageId : String) (nonce : Bytes) :
    Except String (Option PlainMessage × List (String × EncryptedMessage) × MsgTable × List Event) :=
  match alistGet mgr channelId with
  | none => Except.ok (none, [], store, [])
  | some channel =>
    if hasAccess mgr channelId (pubKeyToHex selfPub) = false then
      Except.ok (none, [], store, [Event.errorEv ("Access denied for #" ++ channelId)])
    else
      let encrypted := encryptMessage content channelId channel.groupKey
        selfPub selfPriv selfNick timestamp messageId nonce
      match msgSave fk store encrypted with
      | Except.error e => Except.error e
      | Except.ok store2 =>
        Except.ok
          (some
            { content := content
              senderPubKey := selfPub
              senderNick := selfNick
              timestamp := timestamp
              channelId := channelId
              messageId := messageId },
            [(channelTopic channelId, encrypted)], store2, [])

/-- ChatProtocol.handleIncoming, with the channel id already recovered
from the topic suffix: dedup on message id, resolve the channel from the
topic-derived id, verify-decrypt, check sender access, then save the
envelope and emit the plain message.  Note the embedded channel id of the
envelope is never compared to the topic-derived one. -/
def chatHandleIncoming (mgr : ChannelMap) (fk : List String) (store : MsgTable)
    (channelId : String) (encrypted : EncryptedMessage) :
    Except String (MsgTable × List Event) :=
  if msgExists store encrypted.messageId then Except.ok (store, [])
  else
    match alistGet mgr channelId with
    | none => Except.ok (store, [])
    | some channel =>
      match decryptMessage encrypted channel.groupKey with
      | none => Except.ok (store, [])
      | some plain =>
        let sender := pubKeyToHex plain.senderPubKey
        if hasAccess mgr channelId sender = false then Except.ok (store, [])
        else
          match msgSave fk store encrypted with
          | Except.error e => Except.error e
          | Except.ok store2 => Except.ok (store2, [Event.message plain])

/-- The gossip listener registered by ChatProtocol.start: filters on the
chat topic namespace, recovers the channel id as the topic suffix, and
turns a thrown error into an error event. -/
def chatOnGossip (mgr : ChannelMap) (fk : List String) (store : MsgTable)
    (topic : String) (encrypted : EncryptedMessage) : MsgTable × List Event :=
  if strStartsWith topic "/ordernet/chat/1.0.0/" then
    let channelId := strDrop topic "/ordernet/chat/1.0.0/".data.length
    match chatHandleIncoming mgr fk store channelId encrypted with
    | Except.ok r => r
    | Except.error e => (store, [Event.errorEv ("Chat recv error: " ++ e)])
  else (store, [])

/-! ## Presence protocol (protocols/presence.ts) -/

/-- On-wire presence announcement; the signature is over the canonical
JSON of public key, nickname, timestamp and channel list, modelled as the
quadruple itself. -/
structure PresenceWire where
  pubKey : Bytes
  nickname : String
  timestamp : Int
  channels : List String
  signature : MSig (Bytes × String × Int × List String)
deriving DecidableEq, Repr

/-- The in-memory online-peer map: hex public key to nickname and
last-seen timestamp. -/
abbrev OnlinePeers := List (String × (String × Int))

/-- PresenceProtocol.handleAnnouncement: verify the signature, drop own
announcements, then upsert nickname and last-seen (the incoming timestamp
is written unconditionally).  Emits peer-joined on first appearance and
presence on every accepted announcement.  The durable peer-store upsert
carries no state any claim observes and is not tracked. -/
def presenceHandleAnnouncement (selfPub : Bytes) (peers : OnlinePeers)
    (ann : PresenceWire) : OnlinePeers × List Event :=
  let payload := (ann.pubKey, ann.nickname, ann.timestamp, ann.channels)
  if verifySignature ann.pubKey payload ann.signature = false then (peers, [])
  else
    let hexKey := pubKeyToHex ann.pubKey
    if hexKey == pubKeyToHex selfPub then (peers, [])
    else
      let isNew := (alistGet peers hexKey).isNone
      let peers2 := alistSet peers hexKey (ann.nickname, ann.timestamp)
      let joinedEvents := if isNew then [Event.peerJoined hexKey ann.nickname] else []
      (peers2,
        joinedEvents ++ [Event.presenceEv ann.pubKey ann.nickname ann.timestamp ann.channels])

/-! ## Web of trust (trust/web-of-trust.ts) -/

/-- Row of the vouches table.  Primary key is the triple of voucher,
vouchee and channel. -/
structure VouchRow where
  voucher : Bytes
  vouchee : Bytes
  channelId : String
  timestamp : Int
  signature : MSig (Bytes × Bytes × String × Int)
deriving DecidableEq, Repr

/-- The vouches table in insertion order. -/
abbrev VouchTable := List VouchRow

/-- Row of the join_requests table, keyed by requester and channel. -/
structure JoinReqRow where
  requester : Bytes
  channelId : String
  timestamp : Int
  vouchesReceived : Nat
  status : String
deriving DecidableEq, Repr

/-- The join_requests table. -/
abbrev JoinReqTable := List JoinReqRow

/-- Composite-primary-key match on the vouches table. -/
def vouchKeyMatches (r : VouchRow) (voucher vouchee : Bytes) (channelId : String) : Bool :=
  r.voucher == voucher && r.vouchee == vouchee && r.channelId == channelId

/-- WebOfTrust.getVouchCount: COUNT of vouches for a vouchee in a
channel. -/
def getVouchCount (tbl : VouchTable) (vouchee : Bytes) (channelId : String) : Nat :=
  (tbl.filter (fun r => r.vouchee == vouchee && r.channelId == channelId)).length

/-- WebOfTrust.saveVouch: INSERT OR IGNORE on the composite primary key,
then recompute vouches_received on the matching join request. -/
def saveVouch (tbl : VouchTable) (jr : JoinReqTable) (v : VouchRow) :
    VouchTable × JoinReqTable :=
  let tbl2 :=
    if tbl.any (fun r => vouchKeyMatches r v.voucher v.vouchee v.channelId) then tbl
    else tbl ++ [v]
  let jr2 := jr.map (fun e =>
    if e.requester == v.vouchee && e.channelId == v.channelId then
      { e with vouchesReceived := getVouchCount tbl2 v.vouchee v.channelId }
    else e)
  (tbl2, jr2)

/-- WebOfTrust.createVouch: signs the canonical JSON of the first four
fields (symbolically, the quadruple), builds the vouch, and saves it.
The clock read is explicit. -/
def createVouch (tbl : VouchTable) (jr : JoinReqTable)
    (voucherPrivKey voucherPubKey voucheePubKey : Bytes) (channelId : String)
    (timestamp : Int) : VouchRow × VouchTable × JoinReqTable :=
  let payload := (voucherPubKey, voucheePubKey, channelId, timestamp)
  let signature := signMessage voucherPrivKey payload
  let vouch : VouchRow :=
    { voucher := voucherPubKey
      vouchee := voucheePubKey
      channelId := channelId
      timestamp := timestamp
      signature := signature }
  let (tbl2, jr2) := saveVouch tbl jr vouch
  (vouch, tbl2, jr2)

/-! ## Key exchange protocol (protocols/key-exchange.ts, trust/invite.ts) -/

/-- On-wire key-exchange payload (types.ts KeyExchangePayload); the
signature field is over the canonical JSON of sender, recipient, channel
and timestamp, modelled as the quadruple. -/
structure KeyExchangePayload where
  senderPubKey : Bytes
  recipientPubKey : Bytes
  channelId : String
  encryptedGroupKey : Cipher Bytes
  ephemeralPubKey : Bytes
  nonce : Bytes
  timestamp : Int
  signature : MSig (Bytes × Bytes × String × Int)
deriving DecidableEq, Repr

/-- KeyExchangeProtocol.handleIncoming: checks the payload is addressed
to this node, decrypts the group key (an AEAD failure is thrown and
becomes an error event in the start wrapper), constructs a fresh config
with the sender as creator and threshold 2, joins the channel, and emits
key-received.  The code performs no signature verification on the
payload. -/
def kxHandleIncoming (selfPub selfPriv : Bytes) (mgr : ChannelMap) (tbl : ChannelTable)
    (payload : KeyExchangePayload) (now : Int) :
    ChannelMap × ChannelTable × List Event :=
  if payload.recipientPubKey ≠ selfPub then (mgr, tbl, [])
  else
    match decryptGroupKeyFromPeer payload.encryptedGroupKey selfPriv
        payload.ephemeralPubKey payload.nonce with
    | none => (mgr, tbl, [Event.errorEv "KeyEx protocol error"])
    | some groupKey =>
      let cfg : ChannelConfig :=
        { id := payload.channelId
          name := "#" ++ payload.channelId
          creatorPubKey := payload.senderPubKey
          vouchThreshold := 2
          createdAt := payload.timestamp
          accessMode := none
          inviteOnly := none
          allowedMembers := none }
      let r := joinChannel selfPub mgr tbl cfg groupKey now
      (r.2.1, r.2.2, [Event.keyReceived payload.channelId])

/-! ## Invite codes (node.ts createInviteCode / joinWithInviteCode)

The consuming side parses arbitrary JSON with permissive JavaScript
coercions, so the payload is modelled as a dynamic JavaScript value.  The
base64url and JSON text codec between the two sides is injective and
inverse on the wire and is modelled as the identity on the structured
payload; a JSON.parse failure of the incoming text is the error case of
the parsed argument. -/

/-- Dynamic JavaScript values as produced by JSON.parse, plus undefined
for absent properties. -/
inductive JsVal where
  | undef
  | nullv
  | bool (b : Bool)
  | num (n : Int)
  | str (s : String)
  | arr (xs : List JsVal)
  | obj (fields : List (String × JsVal))

/-- Property access on a JavaScript value: undefined on a missing key or
a non-object. -/
def jsGet (v : JsVal) (k : String) : JsVal :=
  match v with
  | JsVal.obj fields =>
    match fields.find? (fun p => p.1 == k) with
    | some p => p.2
    | none => JsVal.undef
  | _ => JsVal.undef

/-- JavaScript truthiness. -/
def jsTruthy : JsVal → Bool
  | JsVal.undef => false
  | JsVal.nullv => false
  | JsVal.bool b => b
  | JsVal.num n => n != 0
  | JsVal.str s => s != ""
  | JsVal.arr _ => true
  | JsVal.obj _ => true

/-- The typeof x equals object test: true for null, arrays and plain
objects. -/
def jsIsObjectType : JsVal → Bool
  | JsVal.nullv => true
  | JsVal.arr _ => true
  | JsVal.obj _ => true
  | _ => false

/-- The typeof x equals string test. -/
def jsIsStr : JsVal → Bool
  | JsVal.str _ => true
  | _ => false

/-- Conversion of one array element inside String() of an array: null
and undefined become empty strings.  Arrays and objects nested inside an
array are beyond any value the node ever stringifies and map to fixed
tags. -/
def jsElemString : JsVal → String
  | JsVal.undef => ""
  | JsVal.nullv => ""
  | JsVal.bool b => if b then "true" else "false"
  | JsVal.num n => toString n
  | JsVal.str s => s
  | JsVal.arr _ => ""
  | JsVal.obj _ => "[object Object]"

/-- The String(x) conversion: primitive values print their JavaScript
forms, arrays join their converted elements with commas, objects print
as object tags. -/
def jsToString : JsVal → String
  | JsVal.undef => "undefined"
  | JsVal.nullv => "null"
  | JsVal.bool b => if b then "true" else "false"
  | JsVal.num n => toString n
  | JsVal.str s => s
  | JsVal.arr xs => String.intercalate "," (xs.map jsElemString)
  | JsVal.obj _ => "[object Object]"

/-- The Number(x) conversion on the value classes the node can feed it.
Numeric parsing of nonempty strings and the resulting NaN propagation are
outside the paths any claim exercises and collapse to zero here. -/
def jsNumber : JsVal → Int
  | JsVal.num n => n
  | JsVal.bool b => if b then 1 else 0
  | JsVal.nullv => 0
  | JsVal.str _ => 0
  | JsVal.undef => 0
  | JsVal.arr _ => 0
  | JsVal.obj _ => 0

/-- The Number(v or d) idiom of node.ts: the default replaces any falsy
value before conversion. -/
def jsOrNum (v : JsVal) (d : Int) : Int :=
  if jsTruthy v then jsNumber v else d

/-- The ToUint8 coercion applied to each array element or indexed
property when Buffer.from copies an array-like value: convert to a
number and mask to eight bits, missing entries becoming zero. -/
def jsToByte (x : JsVal) : Nat := ((jsNumber x) % 256).toNat

/-- Buffer.from(x, hex) on the values JSON.parse can produce: strings
decode with the forgiving Node hex semantics, arrays become their bytes,
and plain objects follow fromObject of lib/buffer.js: an own truthy
valueOf property is called and throws since JSON values are never
functions, a valueOf of the empty string recurses into the empty decode,
an object with a numeric length property is copied as array-like from
its indexed properties, a length of any other type yields an empty
buffer, a Buffer-JSON object (type Buffer with an array data property)
yields the data bytes, and any other value raises TypeError.  Allocation
limits on gigantic array-like lengths are not modelled. -/
def bufferFromHexJs (v : JsVal) : Except String Bytes :=
  match v with
  | JsVal.str s => Except.ok (hexDecodeNode s)
  | JsVal.arr xs => Except.ok (xs.map jsToByte)
  | JsVal.obj fields =>
    let voProp := jsGet (JsVal.obj fields) "valueOf"
    if jsTruthy voProp then
      Except.error "TypeError: value.valueOf is not a function"
    else if jsIsStr voProp then
      Except.ok []
    else
      match jsGet (JsVal.obj fields) "length" with
      | JsVal.num n =>
        Except.ok ((List.range n.toNat).map
          (fun i => jsToByte (jsGet (JsVal.obj fields) (toString i))))
      | JsVal.undef =>
        match jsGet (JsVal.obj fields) "type", jsGet (JsVal.obj fields) "data" with
        | JsVal.str t, JsVal.arr xs =>
          if t = "Buffer" then Except.ok (xs.map jsToByte)
          else Except.error "TypeError: first argument must be a string, Buffer, ArrayBuffer, Array, or Array-like Object"
        | _, _ =>
          Except.error "TypeError: first argument must be a string, Buffer, ArrayBuffer, Array, or Array-like Object"
      | _ => Except.ok []
  | _ => Except.error "TypeError: first argument must be a string, Buffer, ArrayBuffer, Array, or Array-like Object"

/-- String name of an access mode as serialized into the invite payload. -/
def accessModeToString : ChannelAccessMode → String
  | ChannelAccessMode.publicMode => "public"
  | ChannelAccessMode.privateMode => "private"
  | ChannelAccessMode.dmMode => "dm"

/-- The JSON object built by OrderNetNode.createInviteCode for a channel
state (before base64url encoding of its JSON text). -/
def invitePayload (channel : ChannelState) : JsVal :=
  JsVal.obj
    [("version", JsVal.num 1),
     ("id", JsVal.str channel.config.id),
     ("name", JsVal.str channel.config.name),
     ("creatorPubKeyHex", JsVal.str (pubKeyToHex channel.config.creatorPubKey)),
     ("vouchThreshold", JsVal.num channel.config.vouchThreshold),
     ("accessMode",
       JsVal.str (accessModeToString (channel.config.accessMode.getD ChannelAccessMode.publicMode))),
     ("inviteOnly", JsVal.bool (channel.config.inviteOnly.getD false)),
     ("allowedMembers", JsVal.arr ((channel.config.allowedMembers.getD []).map JsVal.str)),
     ("createdAt", JsVal.num channel.config.createdAt),
     ("groupKeyHex", JsVal.str (bytesToHexString channel.groupKey))]

/-- OrderNetNode.createInviteCode: null when the channel is unknown,
otherwise the serialized payload. -/
def createInviteCode (mgr : ChannelMap) (channelId : String) : Option JsVal :=
  (alistGet mgr channelId).map invitePayload

/-- The accessMode reconstruction of joinWithInviteCode: strict string
comparison against dm and private with public as the fallback. -/
def decodeAccessMode (v : JsVal) : ChannelAccessMode :=
  match v with
  | JsVal.str s =>
    if s = "dm" then ChannelAccessMode.dmMode
    else if s = "private" then ChannelAccessMode.privateMode
    else ChannelAccessMode.publicMode
  | _ => ChannelAccessMode.publicMode

/-- The allowedMembers reconstruction of joinWithInviteCode: an array
filtered to its string elements, anything else the empty list. -/
def decodeAllowedMembers (v : JsVal) : List String :=
  match v with
  | JsVal.arr xs =>
    xs.filterMap (fun x => match x with | JsVal.str s => some s | _ => none)
  | _ => []

/-- OrderNetNode.joinWithInviteCode, from the result of decoding and
parsing the code text (error when JSON.parse threw).  The whole body runs
in a try/catch returning null, so every thrown error maps to none with
the state unchanged.  Note the group key is decoded with the forgiving
Buffer semantics and its length is never checked. -/
def joinWithInviteCode (selfPub : Bytes) (mgr : ChannelMap) (tbl : ChannelTable)
    (parsed : Except String JsVal) (now : Int) :
    Option String × ChannelMap × ChannelTable :=
  match parsed with
  | Except.error _ => (none, mgr, tbl)
  | Except.ok payload =>
    if !(jsTruthy payload) || !(jsIsObjectType payload) then (none, mgr, tbl)
    else
      match bufferFromHexJs (jsGet payload "groupKeyHex") with
      | Except.error _ => (none, mgr, tbl)
      | Except.ok groupKey =>
        match hexToPubKeyE (jsToString (jsGet payload "creatorPubKeyHex")) with
        | Except.error _ => (none, mgr, tbl)
        | Except.ok creator =>
          let cfg : ChannelConfig :=
            { id := jsToString (jsGet payload "id")
              name := jsToString (jsGet payload "name")
              creatorPubKey := creator
              vouchThreshold := jsOrNum (jsGet payload "vouchThreshold") 1
              createdAt := jsOrNum (jsGet payload "createdAt") now
              accessMode := some (decodeAccessMode (jsGet payload "accessMode"))
              inviteOnly := some (jsTruthy (jsGet payload "inviteOnly"))
              allowedMembers := some (decodeAllowedMembers (jsGet payload "allowedMembers")) }
          let r := joinChannel selfPub mgr tbl cfg groupKey now
          (some r.1.config.id, r.2.1, r.2.2)

/-! ## Concrete fixtures

Small closed inputs used to evaluate the embedded operations at specific
points. -/

/-- A presence announcement from the fixture peer at a given timestamp,
correctly signed. -/
def annAt (ts : Int) : PresenceWire :=
  { pubKey := derivePub [10]
    nickname := "alice"
    timestamp := ts
    channels := []
    signature := signMessage [10] (derivePub [10], "alice", ts, ([] : List String)) }

/-- Channel state fixture for the chat-topic scenario: channel a, public. -/
def chA : ChannelState :=
  { config :=
      { id := "a", name := "#a", creatorPubKey := [0, 21], vouchThreshold := 2, createdAt := 0
        accessMode := some ChannelAccessMode.publicMode, inviteOnly := some false
        allowedMembers := some [] }
    groupKey := [11]
    members := ["0015"] }

/-- Channel state fixture: channel b, public, with a different group key. -/
def chB : ChannelState :=
  { config :=
      { id := "b", name := "#b", creatorPubKey := [0, 22], vouchThreshold := 2, createdAt := 0
        accessMode := some ChannelAccessMode.publicMode, inviteOnly := some false
        allowedMembers := some [] }
    groupKey := [14]
    members := ["0016"] }

/-- Channel map with both fixture channels. -/
def mgr3 : ChannelMap := [("a", chA), ("b", chB)]

/-- Envelope encrypted under the group key of channel a but carrying the
embedded channel id b. -/
def enc3 : EncryptedMessage :=
  encryptMessage "hello" "b" chA.groupKey (derivePub [12]) [12] "mallory" 5 "mid1" [13]

/-- Invite payload whose groupKeyHex is not valid hexadecimal. -/
def c5Payload : JsVal :=
  JsVal.obj
    [("id", JsVal.str "c"),
     ("name", JsVal.str "#c"),
     ("creatorPubKeyHex", JsVal.str "0007"),
     ("vouchThreshold", JsVal.num 2),
     ("createdAt", JsVal.num 5),
     ("accessMode", JsVal.str "private"),
     ("inviteOnly", JsVal.bool true),
     ("allowedMembers", JsVal.arr []),
     ("groupKeyHex", JsVal.str "zz")]

/-- Invite-only channel fixture for the access-control witness. -/
def c6St : ChannelState :=
  { config :=
      { id := "c", name := "#c", creatorPubKey := [0, 1], vouchThreshold := 1, createdAt := 0
        accessMode := some ChannelAccessMode.privateMode, inviteOnly := some true
        allowedMembers := some ["AB"] }
    groupKey := [2]
    members := ["0001"] }

/-- Private channel fixture for the persistence scenario, before the
invite. -/
def c4St0 : ChannelState :=
  { config :=
      { id := "team", name := "#team", creatorPubKey := derivePub [1], vouchThreshold := 1
        createdAt := 3, accessMode := some ChannelAccessMode.privateMode
        inviteOnly := some true, allowedMembers := some ["0001"] }
    groupKey := [8, 8]
    members := ["0001"] }

/-- The invite of a new member into the fixture channel: updates the
in-memory config and re-persists it. -/
def c4Inv : Bool × ChannelMap × ChannelTable :=
  inviteMember [("team", c4St0)] [] "team" "00FF"

/-- Key-exchange ciphertext fixture: the group key correctly encrypted
for the fixture recipient with ephemeral key 3 and nonce 4. -/
def kxEnc : Cipher Bytes × Bytes × Bytes :=
  encryptGroupKeyForPeer (List.replicate 32 7) [2] (derivePub [1]) [3] [4]

/-- Key-exchange payload fixture whose signature was made by an unrelated
key, so it does not verify against the claimed sender. -/
def kxForged : KeyExchangePayload :=
  { senderPubKey := derivePub [2]
    recipientPubKey := derivePub [1]
    channelId := "general"
    encryptedGroupKey := kxEnc.1
    ephemeralPubKey := kxEnc.2.1
    nonce := kxEnc.2.2
    timestamp := 5
    signature := MSig.mk [9] (derivePub [2], derivePub [1], "general", 5) }

/-! ## Theorems -/

/-- C8: for every content string, sender nickname, channel id, 32-byte
group key, and Ed25519 keypair, decrypting the result of encryptMessage
with decryptMessage under the same group key succeeds and yields a
PlainMessage whose content field equals the original content. -/
theorem c8_encrypt_decrypt_roundtrip
    (content channelId senderNick : String)
    (groupKey senderPriv senderPub nonce : Bytes)
    (timestamp : Int) (messageId : String)
    (hkey : groupKey.length = 32)
    (hpair : senderPub = derivePub senderPriv) :
    (decryptMessage
      (encryptMessage content channelId groupKey senderPub senderPriv senderNick
        timestamp messageId nonce)
      groupKey).map PlainMessage.content = some content := by
  subst hpair
  simp [decryptMessage, encryptMessage, verifySignature, signMessage, aeadEncrypt, aeadDecrypt]

/-- Witness for C8 at concrete inputs. -/
theorem c8_encrypt_decrypt_roundtrip_witness :
    (List.replicate 32 1 : Bytes).length = 32 ∧
    (decryptMessage
      (encryptMessage "hi" "general" (List.replicate 32 1) (derivePub [5]) [5] "alice" 7 "m1" [9])
      (List.replicate 32 1)).map PlainMessage.content = some "hi" :=
  ⟨by decide,
    c8_encrypt_decrypt_roundtrip "hi" "general" "alice" (List.replicate 32 1) [5]
      (derivePub [5]) [9] 7 "m1" (by decide) rfl⟩

/-- C10: for a channel id with no channel present in the manager,
ChatProtocol.sendMessage returns null, publishes nothing, saves nothing
and emits no event at all. -/
theorem c10_send_unknown_channel
    (selfPub selfPriv : Bytes) (selfNick : String)
    (mgr : ChannelMap) (fk : List String) (store : MsgTable)
    (channelId content : String) (timestamp : Int) (messageId : String) (nonce : Bytes)
    (h : alistGet mgr channelId = none) :
    sendMessage selfPub selfPriv selfNick mgr fk store channelId content
      timestamp messageId nonce = Except.ok (none, [], store, []) := by
  simp [sendMessage, h]

/-- Witness for C10 at concrete inputs. -/
theorem c10_send_unknown_channel_witness :
    sendMessage (derivePub [1]) [1] "me" [] [] [] "nochan" "hi" 0 "m" []
      = Except.ok (none, [], [], []) :=
  c10_send_unknown_channel (derivePub [1]) [1] "me" [] [] [] "nochan" "hi" 0 "m" [] rfl

/-- C6: for every channel present in the manager and every peer hex
string, hasAccess returns true exactly when the channel is not
invite-only or the peer is an allowed member up to case. -/
theorem c6_hasAccess_iff (mgr : ChannelMap) (channelId p : String) (st : ChannelState)
    (h : alistGet mgr channelId = some st) :
    hasAccess mgr channelId p = true ↔
      (st.config.inviteOnly.getD false = false ∨
        ∃ m ∈ st.config.allowedMembers.getD [], strLower m = strLower p) := by
  simp only [hasAccess, h]
  by_cases hio : st.config.inviteOnly.getD false = false
  · simp [hio]
  · rw [if_neg hio]
    simp only [decide_eq_true_eq, List.mem_map]
    constructor
    · rintro ⟨m, hm, he⟩
      exact Or.inr ⟨m, hm, he⟩
    · rintro (hc | ⟨m, hm, he⟩)
      · exact absurd hc hio
      · exact ⟨m, hm, he⟩

/-- Witness for C6: a member listed in uppercase grants access when
queried with different casing. -/
theorem c6_hasAccess_iff_witness : hasAccess [("c", c6St)] "c" "aB" = true :=
  (c6_hasAccess_iff [("c", c6St)] "c" "aB" c6St rfl).mpr
    (Or.inr ⟨"AB", by decide, by decide⟩)

/-- C9: two createVouch calls with the same voucher, vouchee and channel
into a table with no prior vouches for that vouchee and channel leave the
vouch count at one; the second insert is ignored on the composite primary
key. -/
theorem c9_vouch_dedup (tbl : VouchTable) (jr : JoinReqTable)
    (voucherPriv voucherPub voucheePub : Bytes) (channelId : String) (ts1 ts2 : Int)
    (h : getVouchCount tbl voucheePub channelId = 0) :
    getVouchCount
      (createVouch
        (createVouch tbl jr voucherPriv voucherPub voucheePub channelId ts1).2.1
        (createVouch tbl jr voucherPriv voucherPub voucheePub channelId ts1).2.2
        voucherPriv voucherPub voucheePub channelId ts2).2.1
      voucheePub channelId = 1 := by
  have hnil : tbl.filter (fun r => r.vouchee == voucheePub && r.channelId == channelId) = [] :=
    List.length_eq_zero.mp h
  have hall : ∀ r ∈ tbl, ¬(r.vouchee == voucheePub && r.channelId == channelId) = true := by
    intro r hr hcontra
    have hmem : r ∈ tbl.filter (fun r => r.vouchee == voucheePub && r.channelId == channelId) :=
      List.mem_filter.mpr ⟨hr, hcontra⟩
    rw [hnil] at hmem
    exact absurd hmem (List.not_mem_nil r)
  have hany : tbl.any (fun r => vouchKeyMatches r voucherPub voucheePub channelId) = false := by
    rw [List.any_eq_false]
    intro r hr hcontra
    unfold vouchKeyMatches at hcontra
    have h2 : (r.vouchee == voucheePub && r.channelId == channelId) = true := by
      have := Bool.and_eq_true_iff.mp hcontra
      exact Bool.and_eq_true_iff.mpr ⟨(Bool.and_eq_true_iff.mp this.1).2, this.2⟩
    exact hall r hr h2
  have hv1 : vouchKeyMatches
      ⟨voucherPub, voucheePub, channelId, ts1,
        signMessage voucherPriv (voucherPub, voucheePub, channelId, ts1)⟩
      voucherPub voucheePub channelId = true := by
    simp [vouchKeyMatches]
  simp only [createVouch, saveVouch, hany, hv1, List.any_append, List.any_cons, List.any_nil,
    Bool.or_false, Bool.false_or, Bool.false_eq_true, if_false, if_true]
  rw [getVouchCount, List.filter_append, hnil, List.nil_append]
  simp

/-- Witness for C9 at concrete inputs. -/
theorem c9_vouch_dedup_witness :
    getVouchCount
      (createVouch
        (createVouch [] [] [1] (derivePub [1]) [0, 2] "general" 1).2.1
        (createVouch [] [] [1] (derivePub [1]) [0, 2] "general" 1).2.2
        [1] (derivePub [1]) [0, 2] "general" 2).2.1
      [0, 2] "general" = 1 :=
  c9_vouch_dedup [] [] [1] (derivePub [1]) [0, 2] "general" 1 2 rfl

/-- C2 counterexample: two validly signed announcements from the same
peer with timestamps one and two, processed newest first; last-seen ends
at the older timestamp, so it is not the later timestamp and has moved
backwards. -/
theorem c2_counterexample :
    (1 : Int) < 2 ∧
    verifySignature (annAt 2).pubKey
      ((annAt 2).pubKey, (annAt 2).nickname, (annAt 2).timestamp, (annAt 2).channels)
      (annAt 2).signature = true ∧
    verifySignature (annAt 1).pubKey
      ((annAt 1).pubKey, (annAt 1).nickname, (annAt 1).timestamp, (annAt 1).channels)
      (annAt 1).signature = true ∧
    alistGet
      (presenceHandleAnnouncement (derivePub [1])
        (presenceHandleAnnouncement (derivePub [1]) [] (annAt 2)).1
        (annAt 1)).1
      (pubKeyToHex (annAt 1).pubKey) = some ("alice", 1) ∧
    alistGet
      (presenceHandleAnnouncement (derivePub [1])
        (presenceHandleAnnouncement (derivePub [1]) [] (annAt 2)).1
        (annAt 1)).1
      (pubKeyToHex (annAt 1).pubKey) ≠ some ("alice", 2) := by
  decide

/-- C2 amended: last-seen always equals the timestamp of the most
recently processed valid announcement; in particular, processing the
older announcement first and the newer one second leaves last-seen at the
newer timestamp. -/
theorem c2_amended (selfPub : Bytes) (peers : OnlinePeers) (ann1 ann2 : PresenceWire)
    (hpk : ann2.pubKey = ann1.pubKey)
    (hv1 : verifySignature ann1.pubKey
      (ann1.pubKey, ann1.nickname, ann1.timestamp, ann1.channels) ann1.signature = true)
    (hv2 : verifySignature ann2.pubKey
      (ann2.pubKey, ann2.nickname, ann2.timestamp, ann2.channels) ann2.signature = true)
    (hself : pubKeyToHex ann1.pubKey ≠ pubKeyToHex selfPub) :
    alistGet
      (presenceHandleAnnouncement selfPub
        (presenceHandleAnnouncement selfPub peers ann1).1 ann2).1
      (pubKeyToHex ann1.pubKey) = some (ann2.nickname, ann2.timestamp) := by
  have hbeq : (pubKeyToHex ann1.pubKey == pubKeyToHex selfPub) = false :=
    beq_eq_false_iff_ne.mpr hself
  rw [hpk] at hv2
  simp only [presenceHandleAnnouncement, hv1, hv2, hbeq, hpk]
  simp only [Bool.true_eq_false, Bool.false_eq_true, if_false]
  exact alistGet_set_self _ _ _

/-- Witness for the amended C2 at concrete inputs. -/
theorem c2_amended_witness :
    alistGet
      (presenceHandleAnnouncement (derivePub [1])
        (presenceHandleAnnouncement (derivePub [1]) [] (annAt 1)).1 (annAt 2)).1
      (pubKeyToHex (annAt 1).pubKey) = some ("alice", 2) :=
  c2_amended (derivePub [1]) [] (annAt 1) (annAt 2) rfl (by decide) (by decide) (by decide)

theorem strStartsWith_channelTopic (t : String) :
    strStartsWith (channelTopic t) "/ordernet/chat/1.0.0/" = true := by
  simp [strStartsWith, channelTopic, String.data_append, List.take_left]

theorem strDrop_channelTopic (t : String) :
    strDrop (channelTopic t) 21 = t := by
  have h : ("/ordernet/chat/1.0.0/" : String).data.length = 21 := rfl
  simp [strDrop, channelTopic, String.data_append, List.drop_left' h]

/-- C3 counterexample: an envelope embedded with channel id b, encrypted
under the group key of channel a and delivered on the topic of channel a,
is not dropped: it is saved to the message store and a message event is
emitted, both under the embedded id b. -/
theorem c3_counterexample :
    enc3.channelId = "b" ∧ ("b" : String) ≠ "a" ∧
    chatOnGossip mgr3 ["a", "b"] [] (channelTopic "a") enc3 =
      ([enc3],
        [Event.message
          { content := "hello", senderPubKey := derivePub [12], senderNick := "mallory"
            timestamp := 5, channelId := "b", messageId := "mid1" }]) := by
  decide

/-- C3 amended: the embedded channel id of a chat envelope is never
compared against the topic suffix; the topic suffix alone selects the
channel whose key decrypts and whose policy gates the message, and a
fresh envelope that decrypts and passes access (and whose embedded id
exists in the channels table) is saved and emitted under its embedded
channel id, matching the topic or not. -/
theorem c3_amended (mgr : ChannelMap) (fk : List String) (store : MsgTable)
    (t : String) (enc : EncryptedMessage) (st : ChannelState) (plain : PlainMessage)
    (hnew : msgExists store enc.messageId = false)
    (hch : alistGet mgr t = some st)
    (hdec : decryptMessage enc st.groupKey = some plain)
    (hacc : hasAccess mgr t (pubKeyToHex plain.senderPubKey) = true)
    (hfk : enc.channelId ∈ fk) :
    chatOnGossip mgr fk store (channelTopic t) enc = (store ++ [enc], [Event.message plain]) := by
  simp only [chatOnGossip, strStartsWith_channelTopic, strDrop_channelTopic,
    chatHandleIncoming, hnew, hch, hdec, hacc, Bool.false_eq_true, Bool.true_eq_false,
    if_false, if_true]
  simp [msgSave, hfk, hnew, strDrop_channelTopic, hch, hdec, hacc]

/-- Witness for the amended C3 at the fixture inputs. -/
theorem c3_amended_witness :
    chatOnGossip mgr3 ["a", "b"] [] (channelTopic "a") enc3 =
      ([] ++ [enc3],
        [Event.message
          { content := "hello", senderPubKey := derivePub [12], senderNick := "mallory"
            timestamp := 5, channelId := "b", messageId := "mid1" }]) :=
  c3_amended mgr3 ["a", "b"] [] "a" enc3 chA
    { content := "hello", senderPubKey := derivePub [12], senderNick := "mallory"
      timestamp := 5, channelId := "b", messageId := "mid1" }
    (by decide) (by decide) (by decide) (by decide) (by decide)

/-- C1: the key-exchange handler accepts a payload whose signature does
not verify against the sender key: with a correctly encrypted group key
but a signature from an unrelated key, the channel is joined and
key-received is emitted, although verification over the canonical
sender-recipient-channel-timestamp payload fails. -/
theorem c1_keyex_joins_despite_invalid_signature :
    verifySignature kxForged.senderPubKey
      (kxForged.senderPubKey, kxForged.recipientPubKey, kxForged.channelId, kxForged.timestamp)
      kxForged.signature = false ∧
    (kxHandleIncoming (derivePub [1]) [1] [] [] kxForged 9).2.2 = [Event.keyReceived "general"] ∧
    ((alistGet (kxHandleIncoming (derivePub [1]) [1] [] [] kxForged 9).1 "general").map
      ChannelState.groupKey) = some (List.replicate 32 7) := by
  decide

/-- C4: re-persisting a channel after inviteMember stores the updated
invite-only flag and allowed members only in memory; the saved row drops
the access fields, reading it back yields a config without them, and the
reloaded manager state falls back to not-invite-only with the own key as
the only allowed member. -/
theorem c4_access_fields_lost_on_reload :
    c4Inv.1 = true ∧
    (alistGet c4Inv.2.1 "team").map (fun st => st.config.inviteOnly) = some (some true) ∧
    (alistGet c4Inv.2.1 "team").map (fun st => st.config.allowedMembers)
      = some (some ["0001", "00ff"]) ∧
    (channelStoreGet c4Inv.2.2 "team").map (fun s => s.config.inviteOnly) = some none ∧
    (channelStoreGet c4Inv.2.2 "team").map (fun s => s.config.allowedMembers) = some none ∧
    (channelStoreGet c4Inv.2.2 "team").map (fun s => s.config.accessMode) = some none ∧
    (alistGet (loadChannels (derivePub [1]) c4Inv.2.2) "team").map
      (fun st => st.config.inviteOnly) = some (some false) ∧
    (alistGet (loadChannels (derivePub [1]) c4Inv.2.2) "team").map
      (fun st => st.config.allowedMembers) = some (some ["0001"]) := by
  decide

/-- C5 counterexample: an invite payload whose groupKeyHex is the
invalid hex string zz is accepted, not rejected: the call returns the
channel id and joins the channel, with an empty group key from the
truncating decode. -/
theorem c5_bad_groupkeyhex_still_joins :
    (joinWithInviteCode (derivePub [1]) [] [] (Except.ok c5Payload) 10).1 = some "c" ∧
    ((alistGet (joinWithInviteCode (derivePub [1]) [] [] (Except.ok c5Payload) 10).2.1 "c").map
      ChannelState.groupKey) = some [] := by
  decide

/-- C5 amended: joinWithInviteCode never throws; a JSON parse failure, a
non-object payload, a groupKeyHex of a type Buffer.from rejects, or a
creatorPubKeyHex that is not valid even-length hexadecimal each return
null without joining any channel.  A groupKeyHex string of invalid
hexadecimal, however, is silently truncated by the Node decoder and the
channel is joined with the truncated key, its 32-byte length never
checked. -/
theorem c5_amended (selfPub : Bytes) (mgr : ChannelMap) (tbl : ChannelTable) (now : Int)
    (parsed : Except String JsVal)
    (herr : (∃ e, parsed = Except.error e) ∨
      (∃ p, parsed = Except.ok p ∧
        (jsTruthy p = false ∨ jsIsObjectType p = false ∨
          (∃ e, bufferFromHexJs (jsGet p "groupKeyHex") = Except.error e) ∨
          (∃ e, hexToPubKeyE (jsToString (jsGet p "creatorPubKeyHex")) = Except.error e)))) :
    joinWithInviteCode selfPub mgr tbl parsed now = (none, mgr, tbl) := by
  rcases herr with ⟨e, he⟩ | ⟨p, hp, hcase⟩
  · subst he; rfl
  · subst hp
    rcases hcase with h1 | h2 | ⟨e, h3⟩ | ⟨e, h4⟩
    · simp [joinWithInviteCode, h1]
    · simp [joinWithInviteCode, h2]
    · simp [joinWithInviteCode, h3]
    · cases hbuf : bufferFromHexJs (jsGet p "groupKeyHex") with
      | error e2 => simp [joinWithInviteCode, hbuf]
      | ok gk => simp [joinWithInviteCode, hbuf, h4]

/-- Witness for the amended C5: a parse failure returns null and leaves
the state untouched. -/
theorem c5_amended_witness :
    joinWithInviteCode (derivePub [1]) [] [] (Except.error "Unexpected token") 0
      = (none, [], []) :=
  c5_amended (derivePub [1]) [] [] 0 (Except.error "Unexpected token")
    (Or.inl ⟨"Unexpected token", rfl⟩)

theorem jsGet_invitePayload_id (ch : ChannelState) :
    jsGet (invitePayload ch) "id" = JsVal.str ch.config.id := rfl

theorem jsGet_invitePayload_groupKeyHex (ch : ChannelState) :
    jsGet (invitePayload ch) "groupKeyHex" = JsVal.str (bytesToHexString ch.groupKey) := rfl

theorem jsGet_invitePayload_creatorPubKeyHex (ch : ChannelState) :
    jsGet (invitePayload ch) "creatorPubKeyHex"
      = JsVal.str (bytesToHexString ch.config.creatorPubKey) := rfl

theorem jsToString_str (s : String) : jsToString (JsVal.str s) = s := rfl

/-- C7: an invite code produced for a channel state and consumed on
another node returns that channel id, and the consuming manager holds a
channel whose group key bytes equal the producing channel group key. -/
theorem c7_invite_roundtrip (mgrA : ChannelMap) (channelId : String) (st : ChannelState)
    (selfB : Bytes) (mgrB : ChannelMap) (tblB : ChannelTable) (now : Int)
    (hch : alistGet mgrA channelId = some st)
    (hkey : ∀ b ∈ st.groupKey, b < 256)
    (hcreator : ∀ b ∈ st.config.creatorPubKey, b < 256) :
    createInviteCode mgrA channelId = some (invitePayload st) ∧
    (joinWithInviteCode selfB mgrB tblB (Except.ok (invitePayload st)) now).1
      = some st.config.id ∧
    ((alistGet (joinWithInviteCode selfB mgrB tblB (Except.ok (invitePayload st)) now).2.1
        st.config.id).map ChannelState.groupKey) = some st.groupKey := by
  have hg1 : jsTruthy (invitePayload st) = true := rfl
  have hg2 : jsIsObjectType (invitePayload st) = true := rfl
  have hbuf : bufferFromHexJs (jsGet (invitePayload st) "groupKeyHex")
      = Except.ok st.groupKey := by
    rw [jsGet_invitePayload_groupKeyHex]
    simp [bufferFromHexJs, hexDecodeNode_bytesToHexString st.groupKey hkey]
  have hcr : hexToPubKeyE (jsToString (jsGet (invitePayload st) "creatorPubKeyHex"))
      = Except.ok st.config.creatorPubKey := by
    rw [jsGet_invitePayload_creatorPubKeyHex, jsToString_str]
    exact hexToPubKeyE_bytesToHexString _ hcreator
  have hid : jsToString (jsGet (invitePayload st) "id") = st.config.id := rfl
  refine ⟨by simp [createInviteCode, hch], ?_, ?_⟩
  · simp only [joinWithInviteCode, hg1, hg2, hbuf, hcr, hid, Bool.not_true, Bool.or_self,
      Bool.false_eq_true, if_false]
    simp [joinChannel, addMember, createChannelState, normalizeConfig]
  · simp only [joinWithInviteCode, hg1, hg2, hbuf, hcr, hid, Bool.not_true, Bool.or_self,
      Bool.false_eq_true, if_false]
    simp only [joinChannel, addMember, createChannelState]
    rw [alistGet_set_self]
    rfl

/-- Witness for C7 at the fixture channel. -/
theorem c7_invite_roundtrip_witness :
    createInviteCode [("a", chA)] "a" = some (invitePayload chA) ∧
    (joinWithInviteCode (derivePub [2]) [] [] (Except.ok (invitePayload chA)) 4).1
      = some chA.config.id ∧
    ((alistGet (joinWithInviteCode (derivePub [2]) [] [] (Except.ok (invitePayload chA)) 4).2.1
        chA.config.id).map ChannelState.groupKey) = some chA.groupKey :=
  c7_invite_roundtrip [("a", chA)] "a" chA (derivePub [2]) [] [] 4 rfl (by decide) (by decide)

end OrderNet
